import Mathlib

/-!
Shallow embedding of the query-report pipeline of `streamlit_app.py`
(food-wastage dashboard).  Pure fragments of the Python/SQL code are
translated into executable Lean definitions:

* pandas cells and the opportunistic numeric coercion performed by
  `run_sql` (`pd.to_numeric(..., errors="ignore")`);
* the `run_sql` boundary (try/except around `pd.read_sql_query`);
* the SQL text of Query 4, Query 6, Query 7 and Query 11, given the
  standard SQLite semantics (`LOWER` lowercases ASCII letters only,
  `SUM` over an empty table is NULL, `ROUND(x, 2)` rounds half away
  from zero, `GROUP BY` with neither `ORDER BY` tie-break key);
* the display helper `show_df_and_chart` and the `total_val` metric;
* the interactive Query 4 handler with its Python `str.strip()` call.
-/

namespace FoodWastage

/-! ### Cells (pandas values) -/

/-- A pandas cell: integer, float (modelled as a rational), string, or
null/NaN. -/
inductive Cell where
  | int : Int → Cell
  | real : ℚ → Cell
  | str : String → Cell
  | null : Cell
deriving DecidableEq, Repr

/-- Is the cell a string?  A column containing a string cell is the model
of an object-dtype column. -/
def Cell.isStr : Cell → Bool
  | .str _ => true
  | _ => false

/-- Negation of a numeric cell (used for a leading `-` sign). -/
def Cell.neg : Cell → Cell
  | .int n => .int (-n)
  | .real q => .real (-q)
  | c => c

/-- Value of a list of decimal digit characters. -/
def digitsToNat (ds : List Char) : Nat :=
  ds.foldl (fun n c => 10 * n + (c.toNat - 48)) 0

/-- Parse an unsigned numeral: digits, optionally followed by `.` and
digits (at least one digit overall).  Models the numbers accepted by
`pd.to_numeric`. -/
def parseUnsigned (cs : List Char) : Option Cell :=
  match cs.dropWhile Char.isDigit with
  | [] =>
      if (cs.takeWhile Char.isDigit).isEmpty then none
      else some (.int (digitsToNat (cs.takeWhile Char.isDigit)))
  | '.' :: fracPart =>
      if fracPart.all Char.isDigit &&
          !((cs.takeWhile Char.isDigit).isEmpty && fracPart.isEmpty) then
        some (.real ((digitsToNat (cs.takeWhile Char.isDigit) : ℚ) +
          (digitsToNat fracPart : ℚ) / 10 ^ fracPart.length))
      else none
  | _ => none

/-- Parse a possibly signed numeral from a string. -/
def parseNumeric (s : String) : Option Cell :=
  match s.data with
  | '-' :: rest => (parseUnsigned rest).map Cell.neg
  | '+' :: rest => parseUnsigned rest
  | cs => parseUnsigned cs

/-- `pd.to_numeric` on one cell: numeric cells and nulls pass through;
a string cell parses or fails. -/
def toNumericCell : Cell → Option Cell
  | .int n => some (.int n)
  | .real q => some (.real q)
  | .null => some .null
  | .str s => parseNumeric s

/-- The per-column coercion loop of `run_sql`: on an object-dtype column
(one containing a string cell), `pd.to_numeric(col, errors="ignore")`
replaces the column when every value parses as numeric and otherwise
leaves it unchanged; non-object columns are untouched. -/
def coerceColumn (col : List Cell) : List Cell :=
  if col.any Cell.isStr then
    match col.mapM toNumericCell with
    | some converted => converted
    | none => col
  else col

/-! ### The `run_sql` boundary -/

/-- A result table, column-oriented. -/
abbrev Table := List (List Cell)

/-- Outcome of `pd.read_sql_query`: a table, or a raised exception with
message `e`. -/
inductive ExecResult where
  | ok : Table → ExecResult
  | err : String → ExecResult

/-- What `run_sql` hands back to its caller: a dataframe and, when the
except-branch ran, the `st.error` message that was surfaced. -/
structure RunOutput where
  table : Table
  errorMsg : Option String
deriving DecidableEq, Repr

/-- `run_sql`: catch any execution error, surface `st.error(...)` and
return `pd.DataFrame()`; on success coerce each column. -/
def run_sql (res : ExecResult) : RunOutput :=
  match res with
  | .err e => { table := [], errorMsg := some ("SQL execution error:\n" ++ e) }
  | .ok t => { table := t.map coerceColumn, errorMsg := none }

/-! ### Lemmas about the numeric coercion -/

theorem parseUnsigned_not_str (cs : List Char) (c : Cell)
    (h : parseUnsigned cs = some c) : c.isStr = false := by
  unfold parseUnsigned at h
  split at h
  · split at h
    · exact absurd h (by simp)
    · cases h; rfl
  · split at h
    · cases h; rfl
    · exact absurd h (by simp)
  · exact absurd h (by simp)

theorem Cell.isStr_neg (c : Cell) : c.neg.isStr = c.isStr := by
  cases c <;> rfl

theorem parseNumeric_not_str (s : String) (c : Cell)
    (h : parseNumeric s = some c) : c.isStr = false := by
  unfold parseNumeric at h
  split at h
  · rcases Option.map_eq_some'.mp h with ⟨c', hc', rfl⟩
    rw [Cell.isStr_neg]
    exact parseUnsigned_not_str _ _ hc'
  · exact parseUnsigned_not_str _ _ h
  · exact parseUnsigned_not_str _ _ h

theorem toNumericCell_not_str (c c' : Cell) (h : toNumericCell c = some c') :
    c'.isStr = false := by
  cases c with
  | int n => cases h; rfl
  | real q => cases h; rfl
  | null => cases h; rfl
  | str s => exact parseNumeric_not_str _ _ h

theorem mapM_toNumericCell_no_str (col out : List Cell)
    (h : col.mapM toNumericCell = some out) : out.any Cell.isStr = false := by
  induction col generalizing out with
  | nil =>
    simp only [List.mapM_nil, Option.pure_def, Option.some.injEq] at h
    subst h; rfl
  | cons a as ih =>
    simp only [List.mapM_cons, Option.pure_def, Option.bind_eq_bind,
      Option.bind_eq_some, Option.some.injEq] at h
    obtain ⟨b, hb, rest, hrest, rfl⟩ := h
    simp only [List.any_cons, Bool.or_eq_false_iff]
    exact ⟨toNumericCell_not_str _ _ hb, ih _ hrest⟩

/-! ### Claim theorems: run_sql boundary and coercion idempotence -/

/-- C1: the query-report pipeline never raises past `run_sql`'s boundary.
`run_sql` is a total function of the execution outcome; on any execution
error it surfaces the user-visible `st.error` message and returns the
empty table, and on success no error is reported. -/
theorem run_sql_catches_every_error (e : String) (t : Table) :
    run_sql (.err e) =
      { table := [], errorMsg := some ("SQL execution error:\n" ++ e) } ∧
    (run_sql (.ok t)).errorMsg = none ∧
    (run_sql (.err e)).table = [] :=
  ⟨rfl, rfl, rfl⟩

/-- C6: the numeric-coercion post-processing of `run_sql` is idempotent —
coercing a column twice equals coercing it once.  (The chart helper's
per-cell coercion is likewise idempotent: `coerceFillZero_idempotent`.) -/
theorem coerceColumn_idempotent (col : List Cell) (tbl : Table) :
    coerceColumn (coerceColumn col) = coerceColumn col ∧
    (run_sql (.ok tbl)).table = tbl.map coerceColumn := by
  refine ⟨?_, rfl⟩
  by_cases hs : col.any Cell.isStr
  · cases h : col.mapM toNumericCell with
    | none =>
        have h1 : coerceColumn col = col := by rw [coerceColumn, if_pos hs, h]
        rw [h1, h1]
    | some out =>
        have h1 : coerceColumn col = out := by rw [coerceColumn, if_pos hs, h]
        rw [h1, coerceColumn, if_neg]
        simp [mapM_toNumericCell_no_str col out h]
  · have h1 : coerceColumn col = col := by rw [coerceColumn, if_neg hs]
    rw [h1, h1]

/-! ### Data model (the four tables) -/

/-- A row of the `providers` table. -/
structure Provider where
  providerId : Int
  name : String
  ptype : String
  address : String
  city : String
  contact : String
deriving DecidableEq, Repr

/-- A row of the `food_listings` table (`Quantity` after
`CAST(... AS INTEGER)`). -/
structure FoodListing where
  foodId : Int
  providerId : Int
  foodName : String
  foodType : String
  mealType : String
  quantity : Int
  location : String
  expiryDate : String
deriving DecidableEq, Repr

/-- A row of the `claims` table. -/
structure Claim where
  claimId : Int
  foodId : Int
  receiverId : Int
  status : String
  timestamp : String
deriving DecidableEq, Repr

/-! ### SQLite `LOWER` (ASCII-only lowercasing) -/

/-- SQLite `lower(c)` on one character: ASCII `A`–`Z` map to `a`–`z`,
everything else is unchanged. -/
def lowerChar (c : Char) : Char :=
  if 'A' ≤ c ∧ c ≤ 'Z' then Char.ofNat (c.toNat + 32) else c

/-- SQLite `LOWER(s)`. -/
def lowerAscii (s : String) : String :=
  String.mk (s.data.map lowerChar)

/-! ### Query 4 — provider contacts in a city -/

/-- A row returned by Query 4
(`SELECT Provider_ID, Name, Address, City, Contact`). -/
structure Q4Row where
  providerId : Int
  name : String
  address : String
  city : String
  contact : String
deriving DecidableEq, Repr

/-- Query 4: `SELECT Provider_ID, Name, Address, City, Contact FROM
providers WHERE LOWER(City) = LOWER(?)`, the parameter bound
positionally. -/
def q4 (providers : List Provider) (city : String) : List Q4Row :=
  (providers.filter (fun p => lowerAscii p.city = lowerAscii city)).map
    (fun p => ⟨p.providerId, p.name, p.address, p.city, p.contact⟩)

/-! ### Python `str.strip()` and the interactive Query 4 handler -/

/-- Python `str.isspace()` on the ASCII whitespace characters stripped
by `str.strip()`. -/
def isPySpace (c : Char) : Bool :=
  c = ' ' || c = '\t' || c = '\n' || c = '\r' || c = '\x0b' || c = '\x0c'

/-- Python `s.strip()`: remove leading and trailing whitespace. -/
def pyStrip (s : String) : String :=
  String.mk (List.rdropWhile isPySpace (s.data.dropWhile isPySpace))

/-- Outcome of the interactive Query 4 view: either the `st.warning`
prompt for an empty city, or the query result. -/
inductive Q4View where
  | warning : String → Q4View
  | result : List Q4Row → Q4View
deriving DecidableEq, Repr

/-- The interactive Query 4 handler: warn when `city_input.strip()` is
empty, otherwise run `q4` with the stripped parameter. -/
def runQuery4Interactive (providers : List Provider) (city_input : String) :
    Q4View :=
  if pyStrip city_input = "" then
    .warning "Please type a city name then press Run."
  else .result (q4 providers (pyStrip city_input))

/-! ### Lemmas: strip idempotence -/

theorem rdropWhile_append_eq (p : α → Bool) (l : List α) :
    ∃ t, List.rdropWhile p l ++ t = l := by
  obtain ⟨t, ht⟩ := List.dropWhile_suffix (l := l.reverse) p
  refine ⟨t.reverse, ?_⟩
  have := congrArg List.reverse ht
  simpa [List.rdropWhile] using this

theorem head?_false_of_dropWhile_eq_self (p : α → Bool) (l : List α)
    (h : l.dropWhile p = l) (a : α) (ha : l.head? = some a) : p a = false := by
  cases l with
  | nil => simp at ha
  | cons x xs =>
    simp only [List.head?_cons, Option.some.injEq] at ha
    subst ha
    by_cases hx : p x
    · rw [List.dropWhile_cons, if_pos hx] at h
      have hle := (List.dropWhile_suffix (l := xs) p).sublist.length_le
      rw [h] at hle
      simp at hle
    · simpa using hx

theorem dropWhile_eq_self_of_head? (p : α → Bool) (l : List α)
    (h : ∀ a, l.head? = some a → p a = false) : l.dropWhile p = l := by
  cases l with
  | nil => rfl
  | cons x xs =>
    rw [List.dropWhile_cons, if_neg]
    simp [h x rfl]

theorem dropWhile_rdropWhile_eq_self (p : α → Bool) (m : List α)
    (hm : m.dropWhile p = m) :
    (List.rdropWhile p m).dropWhile p = List.rdropWhile p m := by
  apply dropWhile_eq_self_of_head?
  intro a ha
  obtain ⟨t, ht⟩ := rdropWhile_append_eq p m
  refine head?_false_of_dropWhile_eq_self p m hm a ?_
  rw [← ht]
  cases hc : List.rdropWhile p m with
  | nil => simp [hc] at ha
  | cons b bs =>
    rw [hc] at ha
    simp only [List.head?_cons, Option.some.injEq] at ha
    simp [List.cons_append, List.head?_cons, ha]

theorem pyStrip_idempotent (s : String) : pyStrip (pyStrip s) = pyStrip s := by
  show String.mk (List.rdropWhile isPySpace
      (List.dropWhile isPySpace
        (List.rdropWhile isPySpace (List.dropWhile isPySpace s.data)))) =
    String.mk (List.rdropWhile isPySpace (List.dropWhile isPySpace s.data))
  rw [dropWhile_rdropWhile_eq_self isPySpace _
      (List.dropWhile_idempotent isPySpace s.data),
    List.rdropWhile_idempotent]

/-! ### Claim theorems: Query 4 case-insensitivity and strip -/

/-- C3: city matching in Query 4 is case-insensitive exact equality —
two parameters with the same ASCII lowercasing produce identical result
tables on every dataset. -/
theorem q4_case_insensitive (providers : List Provider) (c₁ c₂ : String)
    (h : lowerAscii c₁ = lowerAscii c₂) :
    q4 providers c₁ = q4 providers c₂ := by
  unfold q4
  rw [h]

/-- Witness for C3: `"jaipur"` and `"Jaipur"` on a one-provider
dataset. -/
theorem q4_case_insensitive_witness :
    lowerAscii "jaipur" = lowerAscii "Jaipur" ∧
    q4 [⟨1, "A", "Restaurant", "addr", "Jaipur", "99"⟩] "jaipur" =
      q4 [⟨1, "A", "Restaurant", "addr", "Jaipur", "99"⟩] "Jaipur" :=
  ⟨by decide, q4_case_insensitive _ "jaipur" "Jaipur" (by decide)⟩

/-- C10: the interactive Query 4 view strips the city input before
binding it, so any input behaves exactly like its stripped form (e.g.
`" Jaipur "` like `"Jaipur"`). -/
theorem runQuery4_strips_city (providers : List Provider) (s : String) :
    runQuery4Interactive providers s =
      runQuery4Interactive providers (pyStrip s) := by
  unfold runQuery4Interactive
  rw [pyStrip_idempotent]

/-! ### Query 6 — total quantity available -/

/-- Query 6: `SELECT SUM(CAST(Quantity AS INTEGER)) FROM food_listings`.
An aggregate without `GROUP BY` always yields exactly one row; SQLite's
`SUM` over zero rows is NULL. -/
def q6 (listings : List FoodListing) : List (Option Int) :=
  [if listings.isEmpty then none
   else some ((listings.map FoodListing.quantity).sum)]

/-- The display step for Query 6:
`int(df.iloc[0, 0]) if pd.notna(df.iloc[0, 0]) else 0`. -/
def total_val (cell : Option Int) : Int :=
  match cell with
  | some v => v
  | none => 0

/-- C5: on an empty `food_listings` table, Query 6 returns a single row
holding NULL, which the display layer maps to the metric value 0 — no
error is produced (`q6` and `total_val` are total). -/
theorem q6_empty_yields_zero :
    (q6 []).length = 1 ∧ q6 [] = [none] ∧
    total_val ((q6 []).headD none) = 0 :=
  ⟨rfl, rfl, rfl⟩

/-! ### Query 11 — percentage of claims by status -/

/-- The first-appearance deduplication used to model `GROUP BY`: one
group key per distinct value, in the database's iteration order over the
rows. -/
def dedupFirst {α : Type} [DecidableEq α] : List α → List α
  | [] => []
  | a :: rest => a :: (dedupFirst rest).filter (fun b => b ≠ a)

/-- `ROUND(cnt * 100.0 / n, 2)` scaled by 100, computed exactly:
`⌊(cnt·10000)/n + 1/2⌋ = (2·cnt·10000 + n) / (2·n)` (the arguments are
nonnegative, so rounding half up agrees with SQLite's rounding half away
from zero). -/
def round2scaled (cnt n : Nat) : Nat :=
  (cnt * 20000 + n) / (2 * n)

/-- A row returned by Query 11. -/
structure Q11Row where
  status : String
  total_claims : Nat
  percentage : ℚ
deriving DecidableEq, Repr

/-- Query 11: `SELECT LOWER(Status) AS Status, COUNT(*) AS total_claims,
ROUND(COUNT(*) * 100.0 / (SELECT COUNT(*) FROM claims), 2) AS percentage
FROM claims GROUP BY LOWER(Status)`. -/
def q11 (claims : List Claim) : List Q11Row :=
  (dedupFirst (claims.map (fun c => lowerAscii c.status))).map (fun k =>
    { status := k,
      total_claims := (claims.filter (fun c => lowerAscii c.status = k)).length,
      percentage :=
        (round2scaled (claims.filter (fun c => lowerAscii c.status = k)).length
          claims.length : ℚ) / 100 })

/-- Sum of the percentage column of Query 11's result. -/
def sumPercent (rows : List Q11Row) : ℚ :=
  (rows.map Q11Row.percentage).sum

/-! ### Lemmas about `dedupFirst` and grouping -/

theorem mem_dedupFirst {α : Type} [DecidableEq α] (l : List α) (a : α) :
    a ∈ dedupFirst l ↔ a ∈ l := by
  induction l with
  | nil => simp [dedupFirst]
  | cons x xs ih =>
    simp only [dedupFirst, List.mem_cons, List.mem_filter]
    constructor
    · rintro (rfl | ⟨hmem, _⟩)
      · exact .inl rfl
      · exact .inr (ih.mp hmem)
    · rintro (rfl | hmem)
      · exact .inl rfl
      · by_cases hax : a = x
        · exact .inl hax
        · exact .inr ⟨ih.mpr hmem, by simpa using hax⟩

theorem nodup_dedupFirst {α : Type} [DecidableEq α] (l : List α) :
    (dedupFirst l).Nodup := by
  induction l with
  | nil => exact List.nodup_nil
  | cons x xs ih =>
    refine List.Nodup.cons ?_ (ih.filter _)
    intro hx
    have := (List.mem_filter.mp hx).2
    simp at this

theorem length_filter_eq_count {α κ : Type} [DecidableEq κ]
    (key : α → κ) (l : List α) (k : κ) :
    (l.filter (fun a => key a = k)).length = (l.map key).count k := by
  induction l with
  | nil => rfl
  | cons x xs ih =>
    by_cases h : key x = k
    · simp [List.filter_cons, List.count_cons, h, ih]
    · simp [List.filter_cons, List.count_cons, h, ih]

/-- Every row is counted in exactly one group: the group sizes of a
`GROUP BY` sum to the number of rows. -/
theorem sum_filter_lengths {α κ : Type} [DecidableEq κ]
    (key : α → κ) (l : List α) :
    ((dedupFirst (l.map key)).map
      (fun k => (l.filter (fun a => key a = k)).length)).sum = l.length := by
  rw [← List.sum_toFinset _ (nodup_dedupFirst (l.map key))]
  have htf : (dedupFirst (l.map key)).toFinset = (l.map key).toFinset := by
    ext a
    simp [List.mem_toFinset, mem_dedupFirst]
  rw [htf]
  rw [Finset.sum_congr rfl
    (fun k _ => length_filter_eq_count key l k)]
  simp

theorem sum_map_div100 {κ : Type} (l : List κ) (f : κ → ℕ) :
    (l.map (fun k => ((f k : ℚ) / 100))).sum = ((l.map f).sum : ℚ) / 100 := by
  induction l with
  | nil => simp
  | cons x xs ih =>
    simp only [List.map_cons, List.sum_cons, ih]
    push_cast
    ring

theorem sum_map_natCast_mul {κ : Type} (l : List κ) (F : κ → ℕ) (c : ℚ) :
    (l.map (fun k => (F k : ℚ) * c)).sum = ((l.map F).sum : ℚ) * c := by
  induction l with
  | nil => simp
  | cons x xs ih =>
    simp only [List.map_cons, List.sum_cons, ih]
    push_cast
    ring

theorem abs_sum_sub_le {κ : Type} (l : List κ) (f g : κ → ℚ) (e : ℚ)
    (h : ∀ k ∈ l, |f k - g k| ≤ e) :
    |(l.map f).sum - (l.map g).sum| ≤ (l.length : ℚ) * e := by
  induction l with
  | nil => simp
  | cons x xs ih =>
    simp only [List.map_cons, List.sum_cons, List.length_cons]
    have h1 := h x (List.mem_cons_self x xs)
    have h2 := ih (fun k hk => h k (List.mem_cons_of_mem x hk))
    have h3 : |f x + (xs.map f).sum - (g x + (xs.map g).sum)|
        ≤ |f x - g x| + |(xs.map f).sum - (xs.map g).sum| := by
      have habs := abs_add (f x - g x) ((xs.map f).sum - (xs.map g).sum)
      have heq : f x + (xs.map f).sum - (g x + (xs.map g).sum)
          = (f x - g x) + ((xs.map f).sum - (xs.map g).sum) := by ring
      rw [heq]
      exact habs
    have hcast : ((xs.length + 1 : ℕ) : ℚ) * e = (xs.length : ℚ) * e + e := by
      push_cast
      ring
    rw [hcast]
    linarith

/-- The Nat division `round2scaled` is within `1/2` of the exact scaled
percentage `cnt·10000/n`. -/
theorem round2scaled_close (cnt n : ℕ) (hn : n ≠ 0) :
    |(round2scaled cnt n : ℚ) - (cnt : ℚ) * 10000 / n| ≤ 1 / 2 := by
  have hB : 0 < 2 * n := by omega
  have hdm := Nat.div_add_mod (cnt * 20000 + n) (2 * n)
  have hs : (cnt * 20000 + n) % (2 * n) < 2 * n := Nat.mod_lt _ hB
  have hn' : (n : ℚ) ≠ 0 := Nat.cast_ne_zero.mpr hn
  have hnq : (0 : ℚ) < n := by
    have := Nat.pos_of_ne_zero hn
    exact_mod_cast this
  have hq : (2 * (n : ℚ)) * (round2scaled cnt n : ℚ)
      + (((cnt * 20000 + n) % (2 * n) : ℕ) : ℚ)
      = (cnt : ℚ) * 20000 + n := by
    rw [round2scaled]
    exact_mod_cast hdm
  have hsq : (((cnt * 20000 + n) % (2 * n) : ℕ) : ℚ) < 2 * n := by
    exact_mod_cast hs
  have hs0 : (0 : ℚ) ≤ (((cnt * 20000 + n) % (2 * n) : ℕ) : ℚ) := by positivity
  have key : (round2scaled cnt n : ℚ) - (cnt : ℚ) * 10000 / n
      = ((n : ℚ) - (((cnt * 20000 + n) % (2 * n) : ℕ) : ℚ)) / (2 * n) := by
    field_simp
    linear_combination (n : ℚ) * hq
  rw [key, abs_div, abs_of_pos (show (0 : ℚ) < 2 * n by positivity),
    div_le_iff₀ (show (0 : ℚ) < 2 * n by positivity)]
  have habs : |(n : ℚ) - (((cnt * 20000 + n) % (2 * n) : ℕ) : ℚ)| ≤ n := by
    rw [abs_le]
    constructor <;> linarith
  linarith

/-- Each displayed percentage is within `1/200` (half a rounding unit)
of the exact percentage `cnt·100/n`. -/
theorem percentage_close (cnt n : ℕ) (hn : n ≠ 0) :
    |(round2scaled cnt n : ℚ) / 100 - (cnt : ℚ) * 100 / n| ≤ 1 / 200 := by
  have h := round2scaled_close cnt n hn
  have hn' : (n : ℚ) ≠ 0 := Nat.cast_ne_zero.mpr hn
  have heq : (round2scaled cnt n : ℚ) / 100 - (cnt : ℚ) * 100 / n
      = ((round2scaled cnt n : ℚ) - (cnt : ℚ) * 10000 / n) / 100 := by
    field_simp
    ring
  rw [heq, abs_div, abs_of_pos (show (0 : ℚ) < 100 by norm_num)]
  linarith

/-- The percentage column summed, as the scaled integer sum over 100. -/
theorem sumPercent_q11 (claims : List Claim) :
    sumPercent (q11 claims) =
      (((dedupFirst (claims.map (fun c => lowerAscii c.status))).map
        (fun k => round2scaled
          (claims.filter (fun c => lowerAscii c.status = k)).length
          claims.length)).sum : ℚ) / 100 := by
  rw [sumPercent, q11, List.map_map]
  rw [← sum_map_div100 (dedupFirst (claims.map (fun c => lowerAscii c.status)))
    (fun k => round2scaled
      (claims.filter (fun c => lowerAscii c.status = k)).length
      claims.length)]
  rfl

/-! ### Claim theorems: Query 11 -/

/-- C9: Query 11 selects `LOWER(Status)` as the group label, so every
status value in the result is the ASCII lowercasing of some stored
status. -/
theorem q11_status_lowercased (claims : List Claim) (r : Q11Row)
    (hr : r ∈ q11 claims) : ∃ c ∈ claims, r.status = lowerAscii c.status := by
  unfold q11 at hr
  obtain ⟨k, hk, rfl⟩ := List.mem_map.mp hr
  rw [mem_dedupFirst] at hk
  obtain ⟨c, hc, hck⟩ := List.mem_map.mp hk
  exact ⟨c, hc, hck.symm⟩

/-- Witness for C9: the single claim `"Completed"` produces the label
`"completed"`. -/
theorem q11_status_lowercased_witness :
    ∃ c ∈ [(⟨1, 1, 1, "Completed", ""⟩ : Claim)],
      (Q11Row.mk "completed" 1 ((round2scaled 1 1 : ℚ) / 100)).status =
        lowerAscii c.status :=
  q11_status_lowercased [⟨1, 1, 1, "Completed", ""⟩]
    (Q11Row.mk "completed" 1 ((round2scaled 1 1 : ℚ) / 100))
    (by
      rw [show q11 [(⟨1, 1, 1, "Completed", ""⟩ : Claim)] =
        [Q11Row.mk "completed" 1 ((round2scaled 1 1 : ℚ) / 100)] from rfl]
      exact List.mem_singleton_self _)

/-- The three-claim scenario of C4. -/
def claimsC4 : List Claim :=
  [⟨1, 1, 1, "Completed", ""⟩, ⟨2, 2, 2, "completed", ""⟩,
   ⟨3, 3, 3, "Pending", ""⟩]

/-- Counterexample for C4: on the scenario table the group labels
produced by Query 11 are `"completed"` and `"pending"` — no returned
group is labelled `"Completed"` or `"Pending"` as the claim states,
because the query lower-cases the labels. -/
theorem q11_labels_lowercase_ce :
    (q11 claimsC4).map Q11Row.status = ["completed", "pending"] ∧
    "Completed" ∉ (q11 claimsC4).map Q11Row.status ∧
    "Pending" ∉ (q11 claimsC4).map Q11Row.status := by
  refine ⟨by decide, by decide, by decide⟩

/-- C4 (amended): Query 11 groups case-insensitively; on the scenario
table it returns exactly two groups with lower-cased labels —
`completed` with count 2 (66.67 %) and `pending` with count 1
(33.33 %). -/
theorem q11_groups_case_insensitively :
    q11 claimsC4 =
      [⟨"completed", 2, (6667 : ℚ) / 100⟩,
       ⟨"pending", 1, (3333 : ℚ) / 100⟩] := by
  have h : q11 claimsC4 =
      [⟨"completed", 2, (round2scaled 2 3 : ℚ) / 100⟩,
       ⟨"pending", 1, (round2scaled 1 3 : ℚ) / 100⟩] := rfl
  rw [h]
  norm_num [round2scaled]

/-- Distinct three-letter status names for the C2 counterexample. -/
def statusName (i : ℕ) : String :=
  String.mk ['s', Char.ofNat (97 + i / 26), Char.ofNat (97 + i % 26)]

/-- 32 claims with 32 distinct statuses: each group's percentage is
`100/32 = 3.125`, which `ROUND(..., 2)` turns into `3.13`. -/
def claimsC2 : List Claim :=
  (List.range 32).map
    (fun (i : ℕ) => ⟨(i : Int), (i : Int), (i : Int), statusName i, ""⟩)

/-- Counterexample for C2: on `claimsC2` (non-empty) the percentages
returned by Query 11 sum to `100.16`, which is **not** within the
claimed rounding tolerance of `0.1` of 100. -/
theorem q11_sum_tolerance_ce :
    claimsC2 ≠ [] ∧
    sumPercent (q11 claimsC2) = (10016 : ℚ) / 100 ∧
    ¬ |(10016 : ℚ) / 100 - 100| ≤ 1 / 10 := by
  refine ⟨by decide, ?_, ?_⟩
  · have hnat : ((dedupFirst (claimsC2.map (fun c => lowerAscii c.status))).map
        (fun k => round2scaled
          (claimsC2.filter (fun c => lowerAscii c.status = k)).length
          claimsC2.length)).sum = 10016 := by decide
    rw [sumPercent_q11, hnat]
    norm_num
  · rw [abs_of_nonneg (by norm_num)]
    norm_num

/-- C2 (amended): for every non-empty claims table the percentages of
Query 11 sum to 100 up to the accumulated per-group rounding error —
at most `0.005` per returned status group (hence within `0.1` whenever
there are at most 20 groups); on an empty claims table the query
returns an empty table (no group rows, hence no division). -/
theorem q11_sum_percentage_bound (claims : List Claim) :
    (claims ≠ [] →
      |sumPercent (q11 claims) - 100| ≤
        ((q11 claims).length : ℚ) * (1 / 200)) ∧
    (claims = [] → q11 claims = []) := by
  refine ⟨?_, fun h => by rw [h]; rfl⟩
  intro hne
  have hn : claims.length ≠ 0 := fun h => hne (List.length_eq_zero.mp h)
  have hn' : (claims.length : ℚ) ≠ 0 := Nat.cast_ne_zero.mpr hn
  have hsum : sumPercent (q11 claims) =
      ((dedupFirst (claims.map (fun c => lowerAscii c.status))).map
        (fun k => (round2scaled
          (claims.filter (fun c => lowerAscii c.status = k)).length
          claims.length : ℚ) / 100)).sum := by
    rw [sumPercent_q11, ← sum_map_div100]
  have hlen : ((q11 claims).length : ℚ) =
      ((dedupFirst (claims.map (fun c => lowerAscii c.status))).length : ℚ) := by
    rw [q11, List.length_map]
  have hg : ((dedupFirst (claims.map (fun c => lowerAscii c.status))).map
      (fun k => ((claims.filter (fun c => lowerAscii c.status = k)).length : ℚ)
        * 100 / claims.length)).sum = 100 := by
    simp only [mul_div_assoc]
    rw [sum_map_natCast_mul
      (dedupFirst (claims.map (fun c => lowerAscii c.status)))
      (fun k => (claims.filter (fun c => lowerAscii c.status = k)).length)
      ((100 : ℚ) / claims.length)]
    rw [sum_filter_lengths (fun c : Claim => lowerAscii c.status) claims]
    field_simp
  have hbound := abs_sum_sub_le
    (dedupFirst (claims.map (fun c => lowerAscii c.status)))
    (fun k => (round2scaled
      (claims.filter (fun c => lowerAscii c.status = k)).length
      claims.length : ℚ) / 100)
    (fun k => ((claims.filter (fun c => lowerAscii c.status = k)).length : ℚ)
      * 100 / claims.length)
    (1 / 200)
    (fun k _ => percentage_close _ claims.length hn)
  rw [hg] at hbound
  rw [hsum, hlen]
  exact hbound

/-- Witness for C2's amended bound at a non-empty one-claim table. -/
theorem q11_sum_percentage_bound_witness :
    [(⟨1, 1, 1, "completed", ""⟩ : Claim)] ≠ [] ∧
    |sumPercent (q11 [(⟨1, 1, 1, "completed", ""⟩ : Claim)]) - 100| ≤
      ((q11 [(⟨1, 1, 1, "completed", ""⟩ : Claim)]).length : ℚ) * (1 / 200) :=
  ⟨by decide,
   (q11_sum_percentage_bound [⟨1, 1, 1, "completed", ""⟩]).1 (by decide)⟩

/-! ### Query 7 — city with highest number of listings (top 1)

`SELECT Location AS City, COUNT(*) AS total_listings FROM food_listings
GROUP BY Location ORDER BY total_listings DESC LIMIT 1;` — the `ORDER BY`
has no secondary key, so among tied groups the returned row is whichever
comes first in the database's group enumeration order, which SQL leaves
unspecified.  The embedding therefore takes that enumeration order as an
explicit argument ranging over the permutations of the group keys. -/

/-- A row of Query 7's grouped result. -/
structure Q7Row where
  city : String
  total_listings : ℕ
deriving DecidableEq, Repr

/-- One comparison step of a descending stable sort: keep the incumbent
unless the challenger is strictly larger. -/
def pickBetter (best x : Q7Row) : Q7Row :=
  if best.total_listings < x.total_listings then x else best

/-- `ORDER BY total_listings DESC LIMIT 1` on the grouped rows: the
first row of a stable descending sort, i.e. the first row achieving the
maximal count. -/
def pickTopDesc : List Q7Row → Option Q7Row
  | [] => none
  | r :: rest => some (rest.foldl pickBetter r)

/-- The grouped rows of Query 7, one per group key, in the database's
enumeration order `groupOrder`. -/
def q7groups (listings : List FoodListing) (groupOrder : List String) :
    List Q7Row :=
  groupOrder.map (fun city =>
    ⟨city, (listings.filter (fun f => f.location = city)).length⟩)

/-- `groupOrder` is a legitimate enumeration of the `GROUP BY Location`
keys: a permutation of the distinct locations. -/
abbrev validGroupOrder (listings : List FoodListing)
    (groupOrder : List String) : Prop :=
  groupOrder.Perm (dedupFirst (listings.map FoodListing.location))

/-- Query 7's single returned row, given the database's group
enumeration order. -/
def q7top (listings : List FoodListing) (groupOrder : List String) :
    Option Q7Row :=
  pickTopDesc (q7groups listings groupOrder)

theorem pickBetter_cases (b x : Q7Row) :
    pickBetter b x = b ∨ pickBetter b x = x := by
  unfold pickBetter
  split
  · exact .inr rfl
  · exact .inl rfl

theorem le_pickBetter_left (b x : Q7Row) :
    b.total_listings ≤ (pickBetter b x).total_listings := by
  unfold pickBetter
  split <;> omega

theorem le_pickBetter_right (b x : Q7Row) :
    x.total_listings ≤ (pickBetter b x).total_listings := by
  unfold pickBetter
  split <;> omega

theorem foldl_pickBetter_mem (rest : List Q7Row) (b : Q7Row) :
    rest.foldl pickBetter b = b ∨ rest.foldl pickBetter b ∈ rest := by
  induction rest generalizing b with
  | nil => exact .inl rfl
  | cons x xs ih =>
    simp only [List.foldl_cons]
    rcases ih (pickBetter b x) with h | h
    · rcases pickBetter_cases b x with h2 | h2
      · exact .inl (h.trans h2)
      · exact .inr (List.mem_cons.mpr (.inl (h.trans h2)))
    · exact .inr (List.mem_cons_of_mem x h)

theorem foldl_pickBetter_ge_init (rest : List Q7Row) (b : Q7Row) :
    b.total_listings ≤ (rest.foldl pickBetter b).total_listings := by
  induction rest generalizing b with
  | nil => exact le_refl _
  | cons x xs ih =>
    exact (le_pickBetter_left b x).trans (ih (pickBetter b x))

theorem foldl_pickBetter_ge_mem (rest : List Q7Row) :
    ∀ (b r : Q7Row), r ∈ rest →
      r.total_listings ≤ (rest.foldl pickBetter b).total_listings := by
  induction rest with
  | nil => intro b r hr; cases hr
  | cons x xs ih =>
    intro b r hr
    rcases List.mem_cons.mp hr with rfl | hmem
    · exact (le_pickBetter_right b r).trans
        (foldl_pickBetter_ge_init xs (pickBetter b r))
    · exact ih (pickBetter b x) r hmem

/-- On a non-empty row list, `pickTopDesc` returns a row of the list
achieving the maximal count. -/
theorem pickTopDesc_spec (l : List Q7Row) (hl : l ≠ []) :
    ∃ m, pickTopDesc l = some m ∧ m ∈ l ∧
      ∀ r ∈ l, r.total_listings ≤ m.total_listings := by
  cases l with
  | nil => exact absurd rfl hl
  | cons b rest =>
    refine ⟨rest.foldl pickBetter b, rfl, ?_, ?_⟩
    · rcases foldl_pickBetter_mem rest b with h | h
      · rw [h]
        exact List.mem_cons_self b rest
      · exact List.mem_cons_of_mem b h
    · intro r hr
      rcases List.mem_cons.mp hr with rfl | hmem
      · exact foldl_pickBetter_ge_init rest r
      · exact foldl_pickBetter_ge_mem rest b r hmem

/-- Two listings in different cities: both cities have exactly one
listing, so they tie for the maximum. -/
def listingsC7 : List FoodListing :=
  [⟨1, 1, "rice", "veg", "lunch", 5, "a", "2025-01-01"⟩,
   ⟨2, 2, "dal", "veg", "dinner", 4, "b", "2025-01-02"⟩]

/-- Counterexample for C7: the top-1 query has no explicit tie-break —
on `listingsC7` both `["a", "b"]` and `["b", "a"]` are legitimate group
enumeration orders, and Query 7 returns a different single row for
each, so the result is not determined by the dataset snapshot alone. -/
theorem q7_no_tie_break_ce :
    validGroupOrder listingsC7 ["a", "b"] ∧
    validGroupOrder listingsC7 ["b", "a"] ∧
    q7top listingsC7 ["a", "b"] = some ⟨"a", 1⟩ ∧
    q7top listingsC7 ["b", "a"] = some ⟨"b", 1⟩ ∧
    q7top listingsC7 ["a", "b"] ≠ q7top listingsC7 ["b", "a"] :=
  ⟨by decide, by decide, by decide, by decide, by decide⟩

/-- C7 (amended): Query 7 is deterministic given the dataset snapshot
**and** the database's group enumeration order; since the SQL text has
no explicit tie-break key, two executions are only guaranteed to agree
when the maximising group is unique. -/
theorem q7top_deterministic_of_unique_max (listings : List FoodListing)
    (o₁ o₂ : List String)
    (h₁ : validGroupOrder listings o₁) (h₂ : validGroupOrder listings o₂)
    (huniq : ∀ r₁ ∈ q7groups listings o₁, ∀ r₂ ∈ q7groups listings o₁,
      (∀ r ∈ q7groups listings o₁, r.total_listings ≤ r₁.total_listings) →
      (∀ r ∈ q7groups listings o₁, r.total_listings ≤ r₂.total_listings) →
      r₁ = r₂) :
    q7top listings o₁ = q7top listings o₂ := by
  have hperm : o₁.Perm o₂ := h₁.trans h₂.symm
  have hgperm : (q7groups listings o₁).Perm (q7groups listings o₂) :=
    hperm.map _
  by_cases ho : o₁ = []
  · have ho₂ : o₂ = [] := (ho ▸ hperm).symm.eq_nil
    rw [ho, ho₂]
  · have hne₁ : q7groups listings o₁ ≠ [] := by
      intro h
      exact ho (by simpa [q7groups] using h)
    have hne₂ : q7groups listings o₂ ≠ [] := by
      intro h
      exact hne₁ ((h ▸ hgperm).eq_nil)
    obtain ⟨m₁, hm₁, hmem₁, hmax₁⟩ := pickTopDesc_spec _ hne₁
    obtain ⟨m₂, hm₂, hmem₂, hmax₂⟩ := pickTopDesc_spec _ hne₂
    have hmem₂' : m₂ ∈ q7groups listings o₁ := hgperm.mem_iff.mpr hmem₂
    have hmax₂' : ∀ r ∈ q7groups listings o₁,
        r.total_listings ≤ m₂.total_listings :=
      fun r hr => hmax₂ r (hgperm.subset hr)
    have heq : m₁ = m₂ := huniq m₁ hmem₁ m₂ hmem₂' hmax₁ hmax₂'
    show pickTopDesc _ = pickTopDesc _
    rw [hm₁, hm₂, heq]

/-- Three listings, two in city `"x"`: the maximum is unique. -/
def listingsW7 : List FoodListing :=
  [⟨1, 1, "rice", "veg", "lunch", 5, "x", "2025-01-01"⟩,
   ⟨2, 1, "roti", "veg", "lunch", 2, "x", "2025-01-02"⟩,
   ⟨3, 2, "dal", "veg", "dinner", 4, "y", "2025-01-03"⟩]

/-- Witness for C7's amended determinism on a dataset whose maximising
group is unique. -/
theorem q7top_deterministic_witness :
    validGroupOrder listingsW7 ["x", "y"] ∧
    validGroupOrder listingsW7 ["y", "x"] ∧
    q7top listingsW7 ["x", "y"] = q7top listingsW7 ["y", "x"] :=
  ⟨by decide, by decide,
   q7top_deterministic_of_unique_max listingsW7 ["x", "y"] ["y", "x"]
     (by decide) (by decide) (by decide)⟩

/-! ### The display helper `show_df_and_chart` -/

/-- A result dataframe, row-oriented, with its column names. -/
structure DataFrame where
  colNames : List String
  rows : List (List Cell)
deriving DecidableEq, Repr

/-- The spec of the bar chart passed to `px.bar`: x/y column names and
their values (y after coercion). -/
structure BarChart where
  xName : String
  yName : String
  xVals : List Cell
  yVals : List Cell
deriving DecidableEq, Repr

/-- What `show_df_and_chart` renders: the "No results" info box, or the
dataframe plus an optional bar chart. -/
inductive Display where
  | info : String → Display
  | table : DataFrame → Option BarChart → Display
deriving DecidableEq, Repr

/-- `pd.to_numeric(cell, errors="coerce")` followed by `fillna(0)`:
numeric values pass through, and nulls and non-parsable strings become
zero. -/
def coerceFillZero (c : Cell) : Cell :=
  match toNumericCell c with
  | some (.int n) => .int n
  | some (.real q) => .real q
  | _ => .int 0

/-- `show_df_and_chart`: nothing on an empty frame; otherwise the table,
plus — exactly when the frame has two columns — a bar chart of the
second column (coerced, zeros for non-parsable values) against the
first. -/
def show_df_and_chart (df : DataFrame) : Display :=
  if df.rows.isEmpty then .info "No results to display."
  else if df.colNames.length = 2 then
    .table df (some
      { xName := df.colNames.getD 0 "",
        yName := df.colNames.getD 1 "",
        xVals := df.rows.map (fun r => r.getD 0 Cell.null),
        yVals := df.rows.map (fun r => coerceFillZero (r.getD 1 Cell.null)) })
  else .table df none

/-- The chart helper's per-cell coercion is idempotent as well. -/
theorem coerceFillZero_idempotent (c : Cell) :
    coerceFillZero (coerceFillZero c) = coerceFillZero c := by
  cases c with
  | int n => rfl
  | real q => rfl
  | null => rfl
  | str s =>
    cases h : parseNumeric s with
    | none => simp [coerceFillZero, toNumericCell, h]
    | some c' => cases c' <;> simp [coerceFillZero, toNumericCell, h]

/-- Does the display include a bar chart? -/
def Display.hasBarChart : Display → Bool
  | .table _ (some _) => true
  | _ => false

/-- A two-column result frame with no rows. -/
def dfEmptyTwoCols : DataFrame :=
  ⟨["City", "provider_count"], []⟩

/-- Counterexample for C8: a result table with exactly two columns but
no rows gets the "No results" info box and **no** bar chart — the
`df.empty` early return runs before the two-column rule, so the claim
does not hold for every two-column table. -/
theorem chart_two_cols_ce :
    dfEmptyTwoCols.colNames.length = 2 ∧
    show_df_and_chart dfEmptyTwoCols = .info "No results to display." ∧
    (show_df_and_chart dfEmptyTwoCols).hasBarChart = false :=
  ⟨by decide, by decide, by decide⟩

/-- C8 (amended): for every **non-empty** result table, exactly the
two-column frames are offered a bar chart, whose y-values are the
second column coerced to numeric with non-parsable values becoming
zero; any other column count yields no bar chart. -/
theorem chart_policy (df : DataFrame) (hne : df.rows ≠ []) :
    (df.colNames.length = 2 →
      show_df_and_chart df = .table df (some
        { xName := df.colNames.getD 0 "",
          yName := df.colNames.getD 1 "",
          xVals := df.rows.map (fun r => r.getD 0 Cell.null),
          yVals := df.rows.map (fun r =>
            coerceFillZero (r.getD 1 Cell.null)) })) ∧
    (df.colNames.length ≠ 2 →
      show_df_and_chart df = .table df none) := by
  have hemp : df.rows.isEmpty = false := by
    simpa [List.isEmpty_iff] using hne
  constructor
  · intro h2
    rw [show_df_and_chart, hemp, if_neg (by simp), if_pos h2]
  · intro h2
    rw [show_df_and_chart, hemp, if_neg (by simp), if_neg h2]

/-- Witness for C8's amended chart policy on a concrete two-column
frame containing a parsable and a non-parsable string value. -/
theorem chart_policy_witness :
    (⟨["City", "cnt"], [[Cell.str "a", Cell.str "5"],
      [Cell.str "b", Cell.str "oops"]]⟩ : DataFrame).rows ≠ [] ∧
    ((⟨["City", "cnt"], [[Cell.str "a", Cell.str "5"],
        [Cell.str "b", Cell.str "oops"]]⟩ : DataFrame).colNames.length = 2 →
      show_df_and_chart ⟨["City", "cnt"], [[Cell.str "a", Cell.str "5"],
        [Cell.str "b", Cell.str "oops"]]⟩ =
        .table ⟨["City", "cnt"], [[Cell.str "a", Cell.str "5"],
          [Cell.str "b", Cell.str "oops"]]⟩ (some
          { xName := (⟨["City", "cnt"], [[Cell.str "a", Cell.str "5"],
              [Cell.str "b", Cell.str "oops"]]⟩ : DataFrame).colNames.getD 0 "",
            yName := (⟨["City", "cnt"], [[Cell.str "a", Cell.str "5"],
              [Cell.str "b", Cell.str "oops"]]⟩ : DataFrame).colNames.getD 1 "",
            xVals := (⟨["City", "cnt"], [[Cell.str "a", Cell.str "5"],
              [Cell.str "b", Cell.str "oops"]]⟩ : DataFrame).rows.map
                (fun r => r.getD 0 Cell.null),
            yVals := (⟨["City", "cnt"], [[Cell.str "a", Cell.str "5"],
              [Cell.str "b", Cell.str "oops"]]⟩ : DataFrame).rows.map
                (fun r => coerceFillZero (r.getD 1 Cell.null)) })) :=
  ⟨by decide,
   (chart_policy ⟨["City", "cnt"], [[Cell.str "a", Cell.str "5"],
      [Cell.str "b", Cell.str "oops"]]⟩ (by decide)).1⟩

end FoodWastage
